import Mathlib

/-!
# Verification of the wedge-maker geometry synthesis core

A shallow embedding, in Lean 4, of `wedge_maker.py` from the
wedge-maker-4-gis repository: the license-free erase primitive (`erase`),
the single-sector builder (`createOneWedge`), the inner-radius cutter
(`innerWedgeErase`) and the batch processor (`createWedges`).

Python floats are idealised as exact rationals (`ℚ`); Python's `%` on a
positive modulus is `pymod` below.  Geometry-engine calls (buffer, clip,
union-erase, merge, dissolve) are external to the repository, so geometric
results are represented symbolically by the inductive type `Geom`, while
the trigonometric vertex computations of `createOneWedge` are embedded
over `ℝ` (`radiansR`, `unitAdjustment`, `wedgeHyp`, `ptAX`, ...).
-/

namespace WedgeMaker

/-! ## Python `%` on rationals

CPython's `a % b` for floats with `b > 0` returns `a - b * floor (a / b)`,
a value in `[0, b)`.  The angles handled by the wedge maker are Python
floats; we idealise them as rationals. -/

/-- Python's `%` (for a positive right operand): `a - b * ⌊a / b⌋`. -/
def pymod (a b : ℚ) : ℚ := a - b * ⌊a / b⌋

theorem pymod_nonneg (a : ℚ) {b : ℚ} (hb : 0 < b) : 0 ≤ pymod a b := by
  unfold pymod
  rw [sub_nonneg, mul_comm]
  have h := Int.floor_le (a / b)
  calc (⌊a / b⌋ : ℚ) * b ≤ (a / b) * b := by
        exact mul_le_mul_of_nonneg_right h (le_of_lt hb)
    _ = a := div_mul_cancel₀ a (ne_of_gt hb)

theorem pymod_lt (a : ℚ) {b : ℚ} (hb : 0 < b) : pymod a b < b := by
  unfold pymod
  rw [sub_lt_iff_lt_add]
  have h := Int.lt_floor_add_one (a / b)
  calc a = (a / b) * b := (div_mul_cancel₀ a (ne_of_gt hb)).symm
    _ < ((⌊a / b⌋ : ℚ) + 1) * b := by
        exact mul_lt_mul_of_pos_right h hb
    _ = b + b * ⌊a / b⌋ := by ring

theorem pymod_eq_self {a b : ℚ} (h0 : 0 ≤ a) (h1 : a < b) : pymod a b = a := by
  unfold pymod
  have hb : 0 < b := lt_of_le_of_lt h0 h1
  have : ⌊a / b⌋ = 0 := by
    rw [Int.floor_eq_zero_iff]
    constructor
    · exact div_nonneg h0 (le_of_lt hb)
    · rw [div_lt_one hb]; exact h1
  rw [this]
  push_cast
  ring

theorem pymod_zero (b : ℚ) : pymod 0 b = 0 := by
  unfold pymod
  simp

/-- Adding an integer multiple of the modulus does not change `pymod`. -/
theorem pymod_add_int_mul (a : ℚ) {b : ℚ} (hb : b ≠ 0) (k : ℤ) :
    pymod (a + b * k) b = pymod a b := by
  unfold pymod
  have hdiv : (a + b * k) / b = a / b + k := by
    field_simp
    ring
  rw [hdiv, Int.floor_add_int]
  push_cast
  ring

/-- `pymod a b = 0` exactly when `a` is an integer multiple of `b`. -/
theorem pymod_eq_zero_iff (a : ℚ) {b : ℚ} (hb : b ≠ 0) :
    pymod a b = 0 ↔ ∃ k : ℤ, a = b * k := by
  constructor
  · intro h
    exact ⟨⌊a / b⌋, by unfold pymod at h; linarith [sub_eq_zero.mp h]⟩
  · rintro ⟨k, rfl⟩
    have := pymod_add_int_mul 0 hb k
    simpa [pymod_zero] using this

/-- Two rationals have the same `pymod b` exactly when they differ by an
integer multiple of `b`. -/
theorem pymod_eq_pymod_iff (x y : ℚ) {b : ℚ} (hb : b ≠ 0) :
    pymod x b = pymod y b ↔ ∃ k : ℤ, y - x = b * k := by
  constructor
  · intro h
    refine ⟨⌊y / b⌋ - ⌊x / b⌋, ?_⟩
    unfold pymod at h
    push_cast
    linarith
  · rintro ⟨k, hk⟩
    have hy : y = x + b * k := by linarith
    rw [hy, pymod_add_int_mul x hb k]

/-- The span a builder receives after the batch wraps an endpoint with
`% 360`: `pymod ((x + c) % 360 - x) 360 = pymod c 360`. -/
theorem pymod_shift (x c : ℚ) :
    pymod (pymod (x + c) 360 - x) 360 = pymod c 360 := by
  have hb : (360 : ℚ) ≠ 0 := by norm_num
  have h : pymod (x + c) 360 - x = c + 360 * ((-⌊(x + c) / 360⌋ : ℤ) : ℚ) := by
    unfold pymod
    push_cast
    ring
  rw [h, pymod_add_int_mul c hb]

/-! ## The erase primitive (`erase`, wedge_maker.py lines 6-61)

`erase(input_fc, erase_fc, output_fc)` emulates `arcpy.Erase_analysis`:
it unions the two sources, then deletes every union fragment matching the
where-clause `FID_{input} < 0 OR FID_{erase} > 0`, and finally drops the
two provenance fields.  A union fragment carries, for each source, the
contributing feature's FID — a non-negative value when the fragment
overlaps a feature of that source, and the sentinel `-1` otherwise. -/

/-- One fragment of the `Union_analysis` result inside `erase`, reduced to
its two provenance fields `FID_{input}` and `FID_{erase}`. -/
structure UnionFragment where
  fidInput : ℤ
  fidErase : ℤ
deriving DecidableEq, Repr

/-- Provenance flag: the fragment derives from (overlaps) the input
source, i.e. its `FID_{input}` is non-negative. -/
def fromInput (f : UnionFragment) : Bool := 0 ≤ f.fidInput

/-- Provenance flag: the fragment derives from (overlaps) the erase
source, i.e. its `FID_{erase}` is non-negative. -/
def fromErase (f : UnionFragment) : Bool := 0 ≤ f.fidErase

/-- The deletion test of `erase`'s update cursor (line 54):
`FID_{input_fc_name} < 0 OR FID_{erase_fc_name} > 0`. -/
def eraseDeletes (f : UnionFragment) : Bool := f.fidInput < 0 || f.fidErase > 0

/-- The fragments `erase` keeps: those its cursor does not delete. -/
def eraseKept (frags : List UnionFragment) : List UnionFragment :=
  frags.filter (fun f => !eraseDeletes f)

/-! ## Symbolic geometry

The geometry engine (arcpy) is external to the repository; the shapes the
wedge maker composes are represented symbolically.  `disk cx cy r` is
`Buffer_analysis` of the centre point by `r` meters; `triangle` is the
clip/erase triangle whose apexes are determined by the centre, the two
bearings and the radius (their coordinates are computed over `ℝ` below);
`eraseG` is the repository's own `erase`; `clipG` is `Clip_analysis`;
`mergeTwo` is `Merge_management` of the two split halves; `dissolveG` is
`Dissolve_management`. -/

inductive Geom where
  | disk (centerX centerY r : ℚ)
  | triangle (centerX centerY angleA angleB r : ℚ)
  | eraseG (input eraseRegion : Geom)
  | clipG (input clipper : Geom)
  | mergeTwo (a b : Geom)
  | dissolveG (g : Geom)
deriving DecidableEq, Repr

/-- The geoprocessing operations `createOneWedge` and `innerWedgeErase`
perform, in order, for the operation-trace view of the builders. -/
inductive GeoOp where
  | buildTriangle
  | bufferCircle
  | copyCircleToOutput
  | eraseTriangleFromCircle
  | clipCircleWithTriangle
  | bufferInnerCircle
  | eraseInnerCircle
deriving DecidableEq, Repr

/-! ## The sector builder (`createOneWedge`, wedge_maker.py lines 98-187)

The builder computes `theta = angleB - angleA` in degrees and decides its
strategy with `erase_bool = (theta % 360 > 180)` before converting to
radians.  It always constructs the clip/erase triangle (lines 150-163)
and buffers the centre point into the disk (lines 166-167); then, if the
radian `theta` is exactly `0` (which for exact arithmetic happens exactly
when the degree `theta` is `0`, see `radiansR_eq_zero_iff`), it copies
the disk to the output; otherwise it erases the triangle from the disk
when `erase_bool` holds and clips the disk with the triangle when it does
not. -/

/-- Line 126: `erase_bool = (theta % 360 > 180)`, computed on degrees. -/
def oneWedgeEraseBool (angleA angleB : ℚ) : Bool :=
  decide (pymod (angleB - angleA) 360 > 180)

/-- The geometry `createOneWedge(centerX, centerY, angleA, angleB, r, ...)`
leaves in its output feature class. -/
def createOneWedge (centerX centerY angleA angleB r : ℚ) : Geom :=
  if angleB - angleA = 0 then
    Geom.disk centerX centerY r
  else if oneWedgeEraseBool angleA angleB then
    Geom.eraseG (Geom.disk centerX centerY r)
      (Geom.triangle centerX centerY angleA angleB r)
  else
    Geom.clipG (Geom.disk centerX centerY r)
      (Geom.triangle centerX centerY angleA angleB r)

/-- The geoprocessing operations `createOneWedge` performs, in source
order: the triangle feature class is exported (line 163) and the disk
buffered (line 167) unconditionally, before the `theta == 0` test. -/
def createOneWedgeOps (angleA angleB : ℚ) : List GeoOp :=
  [GeoOp.buildTriangle, GeoOp.bufferCircle] ++
    (if angleB - angleA = 0 then [GeoOp.copyCircleToOutput]
     else if oneWedgeEraseBool angleA angleB then [GeoOp.eraseTriangleFromCircle]
     else [GeoOp.clipCircleWithTriangle])

/-! ## The inner-radius cutter (`innerWedgeErase`, lines 64-95) -/

/-- `innerWedgeErase(centerX, centerY, r2, wedge)`: Python's `if not r2`
is true for the float `r2` exactly when `r2 == 0`, and then the input
wedge (its handle and its geometry) is returned unchanged; otherwise the
inner disk is buffered and erased from the wedge, into `memory\oWedge2`. -/
def innerWedgeErase (centerX centerY r2 : ℚ) (wedge : String × Geom) :
    String × Geom :=
  if r2 = 0 then wedge
  else ("memory\\oWedge2", Geom.eraseG wedge.2 (Geom.disk centerX centerY r2))

/-- The geoprocessing operations `innerWedgeErase` performs: none at all
on the `not r2` early return. -/
def innerWedgeEraseOps (r2 : ℚ) : List GeoOp :=
  if r2 = 0 then []
  else [GeoOp.bufferInnerCircle, GeoOp.eraseInnerCircle]

/-! ## The batch processor (`createWedges`, lines 190-324)

`attributesList` rows are `[wedgeNumber, centerX, centerY, angleA, angleB,
r1]` with an optional seventh entry `r2` (the driver appends `r2` exactly
when the input shapefile has that field); `len(wedge) == 7` is
`WedgeRecord.r2?.isSome` here. -/

/-- One row of `attributesList` (indices 0-6 of the Python list). -/
structure WedgeRecord where
  wedgeNumber : ℤ
  centerX : ℚ
  centerY : ℚ
  angleA : ℚ
  angleB : ℚ
  r1 : ℚ
  r2? : Option ℚ
deriving DecidableEq, Repr

/-- Line 256: `angleA = angleA % 360`. -/
def normA (w : WedgeRecord) : ℚ := pymod w.angleA 360

/-- Line 257: `angleB = angleB % 360`. -/
def normB (w : WedgeRecord) : ℚ := pymod w.angleB 360

/-- Line 260: `theta = (angleB - angleA) % 360`, after normalisation. -/
def batchTheta (w : WedgeRecord) : ℚ := pymod (normB w - normA w) 360

/-- Line 272: the split midpoint bearing `(angleA + theta/2) % 360`. -/
def splitMid (w : WedgeRecord) : ℚ :=
  pymod (normA w + batchTheta w / 2) 360

/-- Line 279: the second half's end bearing `(angleB + theta/2) % 360`
where `angleB` has been reassigned to the midpoint. -/
def splitEnd (w : WedgeRecord) : ℚ :=
  pymod (splitMid w + batchTheta w / 2) 360

/-- One call of the batch processor into `createOneWedge`, with the
arguments as passed (lines 273-275, 280-282 and 293-295). -/
structure BuilderCall where
  centerX : ℚ
  centerY : ℚ
  angleA : ℚ
  angleB : ℚ
  r : ℚ
  outWedgeName : String
deriving DecidableEq, Repr

/-- Lines 273-275: the first half of a split wedge, `"WedgeA"`. -/
def splitCallA (w : WedgeRecord) : BuilderCall :=
  ⟨w.centerX, w.centerY, normA w, splitMid w, w.r1, "WedgeA"⟩

/-- Lines 280-282: the second half of a split wedge, `"WedgeB"`. -/
def splitCallB (w : WedgeRecord) : BuilderCall :=
  ⟨w.centerX, w.centerY, splitMid w, splitEnd w, w.r1, "WedgeB"⟩

/-- Lines 293-295: the single direct call, `"oWedge"`. -/
def directCall (w : WedgeRecord) : BuilderCall :=
  ⟨w.centerX, w.centerY, normA w, normB w, w.r1, "oWedge"⟩

/-- The geometry a `BuilderCall` produces. -/
def BuilderCall.result (c : BuilderCall) : Geom :=
  createOneWedge c.centerX c.centerY c.angleA c.angleB c.r

/-- The loop state of `createWedges`: the wedge counter (line 230), the
names accumulated for the final merge (line 233 and 316), the per-record
outputs copied into the memory workspace (name, geometry and the `WID`
written by lines 305-309), the builder calls made so far, and the printed
messages. -/
structure BatchState where
  count : ℕ
  mergeList : List String
  outputs : List (String × Geom × ℤ)
  builderCalls : List BuilderCall
  messages : List String
deriving DecidableEq, Repr

/-- Line 230 and 233: `count = 1`, `mergeList = []`. -/
def initialState : BatchState := ⟨1, [], [], [], []⟩

/-- Line 251: `f"Skipping wedge {count} (0-degree wedge)..."`. -/
def skipMessage (count : ℕ) : String :=
  "Skipping wedge " ++ Nat.repr count ++ " (0-degree wedge)..."

/-- Line 263: `f"Creating wedge {count} of {len(attributesList)}..."`. -/
def creatingMessage (count total : ℕ) : String :=
  "Creating wedge " ++ Nat.repr count ++ " of " ++ Nat.repr total ++ "..."

/-- Line 314: `"memory\\nextWedge" + str(count)`. -/
def nextWedgeName (count : ℕ) : String :=
  "memory\\nextWedge" ++ Nat.repr count

/-- Lines 297-302: erase the donut hole exactly when the row has the
seventh entry `r2` (`len(wedge) == 7`). -/
def applyInner (w : WedgeRecord) (oWedge : String × Geom) : String × Geom :=
  match w.r2? with
  | some r2 => innerWedgeErase w.centerX w.centerY r2 oWedge
  | none => oWedge

/-- Lines 297-316, shared by the split and the direct branch: the
optional inner erase, `count += 1`, the copy of the wedge to
`memory\nextWedge{count}` and its accumulation onto `mergeList`. -/
def finishRecord (st : BatchState) (w : WedgeRecord) (total : ℕ)
    (calls : List BuilderCall) (oWedge : String × Geom) : BatchState :=
  let oWedge2 := applyInner w oWedge
  let count2 := st.count + 1
  let nextWedge := nextWedgeName count2
  { count := count2
    mergeList := st.mergeList ++ [nextWedge]
    outputs := st.outputs ++ [(nextWedge, oWedge2.2, w.wedgeNumber)]
    builderCalls := st.builderCalls ++ calls
    messages := st.messages ++ [creatingMessage st.count total] }

/-- One iteration of the `for wedge in attributesList` loop
(lines 236-316). -/
def processRecord (total : ℕ) (st : BatchState) (w : WedgeRecord) :
    BatchState :=
  if w.angleA = w.angleB then
    { st with
      messages := st.messages ++ [skipMessage st.count]
      count := st.count + 1 }
  else if 135 < batchTheta w ∧ batchTheta w < 225 then
    finishRecord st w total [splitCallA w, splitCallB w]
      ("memory\\oWedge",
        Geom.dissolveG
          (Geom.mergeTwo (splitCallA w).result (splitCallB w).result))
  else
    finishRecord st w total [directCall w]
      ("memory\\oWedge", (directCall w).result)

/-- How `createWedges` can fail.  `Merge_management` (line 320) is an
external arcpy primitive; per the spec's external contract it rejects an
empty input list, which is the only failure mode modelled here. -/
inductive BatchError where
  | emptyMergeInput
deriving DecidableEq, Repr

/-- `createWedges(attributesList, outputFC, projOut)` (lines 190-324).
The loop accumulates one `memory\nextWedge{count}` feature class per
non-skipped record, and line 320 merges `mergeList` into the output.
Modelled from the spec: the final `arcpy.Merge_management` call is not
repository code; per §6/§7 of the spec, merging zero accumulated parts
"is an error surfaced to the caller", so an empty `mergeList` yields
`BatchError.emptyMergeInput`.  On success the result is the ordered list
of merged parts `(name, geometry, WID)`. -/
def createWedges (attributesList : List WedgeRecord) :
    Except BatchError (List (String × Geom × ℤ)) :=
  let st := attributesList.foldl (processRecord attributesList.length)
    initialState
  if st.mergeList.isEmpty then Except.error BatchError.emptyMergeInput
  else Except.ok st.outputs

/-! ## The trigonometric vertex computation (lines 128-141), over `ℝ`

`createOneWedge` converts the bearings and their difference to radians
(`math.radians`), adjusts the radius when the output spatial reference's
linear unit is `"Foot_US"`, computes the apex distance
`hyp = fabs(r * adjustment / cos(theta/2))`, and places the two triangle
apexes with the bearing convention `X = sin`, `Y = cos`. -/

/-- `math.radians`: degrees to radians, `d * (π / 180)`. -/
noncomputable def radiansR (d : ℝ) : ℝ := d * (Real.pi / 180)

/-- For exact arithmetic, the radian `theta` of line 131 vanishes exactly
when the degree `theta` does: justifies testing `angleB - angleA = 0` in
the rational model of the `if theta == 0` branch (line 175). -/
theorem radiansR_eq_zero_iff (d : ℝ) : radiansR d = 0 ↔ d = 0 := by
  unfold radiansR
  constructor
  · intro h
    rcases mul_eq_zero.mp h with h1 | h2
    · exact h1
    · exact absurd h2 (by positivity)
  · intro h
    rw [h, zero_mul]

/-- Line 134: `adjustment = 3.2808399 if projOut.linearUnitName ==
"Foot_US" else 1`. -/
noncomputable def unitAdjustment (linearUnitName : String) : ℝ :=
  if linearUnitName = "Foot_US" then 3.2808399 else 1

/-- Line 135: `hyp = math.fabs(r * adjustment / math.cos(theta/2))`,
with `theta` the radian span `radiansR (angleB - angleA)`. -/
noncomputable def wedgeHyp (linearUnitName : String) (angleA angleB r : ℝ) : ℝ :=
  |r * unitAdjustment linearUnitName / Real.cos (radiansR (angleB - angleA) / 2)|

/-- Line 138: `ptAX = centerX + math.fabs(hyp) * math.sin(angleA)`. -/
noncomputable def ptAX (centerX : ℝ) (linearUnitName : String)
    (angleA angleB r : ℝ) : ℝ :=
  centerX + |wedgeHyp linearUnitName angleA angleB r| * Real.sin (radiansR angleA)

/-- Line 139: `ptAY = centerY + math.fabs(hyp) * math.cos(angleA)`. -/
noncomputable def ptAY (centerY : ℝ) (linearUnitName : String)
    (angleA angleB r : ℝ) : ℝ :=
  centerY + |wedgeHyp linearUnitName angleA angleB r| * Real.cos (radiansR angleA)

/-- Line 140: `ptBX = centerX + math.fabs(hyp) * math.sin(angleB)`. -/
noncomputable def ptBX (centerX : ℝ) (linearUnitName : String)
    (angleA angleB r : ℝ) : ℝ :=
  centerX + |wedgeHyp linearUnitName angleA angleB r| * Real.sin (radiansR angleB)

/-- Line 141: `ptBY = centerY + math.fabs(hyp) * math.cos(angleB)`. -/
noncomputable def ptBY (centerY : ℝ) (linearUnitName : String)
    (angleA angleB r : ℝ) : ℝ :=
  centerY + |wedgeHyp linearUnitName angleA angleB r| * Real.cos (radiansR angleB)

/-! ## Decimal representations are injective

`str(count)` in Python and `Nat.repr` in the model both print the decimal
digits of the counter; distinctness of the `memory\nextWedge{count}`
names reduces to injectivity of `Nat.repr`. -/

theorem digitChar_inj_below_ten :
    ∀ a < 10, ∀ b < 10, Nat.digitChar a = Nat.digitChar b → a = b := by
  decide

theorem map_digitChar_inj :
    ∀ l₁ l₂ : List ℕ, (∀ x ∈ l₁, x < 10) → (∀ x ∈ l₂, x < 10) →
      l₁.map Nat.digitChar = l₂.map Nat.digitChar → l₁ = l₂ := by
  intro l₁
  induction l₁ with
  | nil =>
    intro l₂ _ _ h
    cases l₂ with
    | nil => rfl
    | cons b t => simp at h
  | cons a t₁ ih =>
    intro l₂ h₁ h₂ h
    cases l₂ with
    | nil => simp at h
    | cons b t₂ =>
      simp only [List.map_cons, List.cons.injEq] at h
      have ha : a < 10 := h₁ a (by simp)
      have hb : b < 10 := h₂ b (by simp)
      have hab : a = b := digitChar_inj_below_ten a ha b hb h.1
      have ht : t₁ = t₂ := by
        refine ih t₂ (fun x hx => h₁ x (by simp [hx]))
          (fun x hx => h₂ x (by simp [hx])) h.2
      rw [hab, ht]

theorem toDigitsCore_eq_digits :
    ∀ f n : ℕ, ∀ l : List Char, n ≠ 0 → n ≤ f →
      Nat.toDigitsCore 10 f n l
        = (Nat.digits 10 n).reverse.map Nat.digitChar ++ l := by
  intro f
  induction f with
  | zero =>
    intro n l hn hf
    omega
  | succ f ih =>
    intro n l hn hf
    have hstep : Nat.digits 10 n = n % 10 :: Nat.digits 10 (n / 10) :=
      Nat.digits_def' (by norm_num) (Nat.pos_of_ne_zero hn)
    by_cases hq : n / 10 = 0
    · have hlt : n < 10 := by omega
      have hmod : n % 10 = n := Nat.mod_eq_of_lt hlt
      simp [Nat.toDigitsCore, hq, hstep, hmod]
    · have hrec : Nat.toDigitsCore 10 (f + 1) n l
          = Nat.toDigitsCore 10 f (n / 10) (Nat.digitChar (n % 10) :: l) := by
        simp [Nat.toDigitsCore, hq]
      have hle : n / 10 ≤ f := by omega
      rw [hrec, ih (n / 10) (Nat.digitChar (n % 10) :: l) hq hle, hstep]
      simp

theorem natRepr_eq_digits (n : ℕ) (hn : n ≠ 0) :
    Nat.repr n = ((Nat.digits 10 n).reverse.map Nat.digitChar).asString := by
  show (Nat.toDigits 10 n).asString = _
  rw [show Nat.toDigits 10 n = Nat.toDigitsCore 10 (n + 1) n [] from rfl,
    toDigitsCore_eq_digits (n + 1) n [] hn (by omega), List.append_nil]

theorem natRepr_injective : Function.Injective Nat.repr := by
  intro m n h
  have base : ∀ k : ℕ, k ≠ 0 →
      Nat.repr k = "0" → False := by
    intro k hk h0
    have hk2 : ((Nat.digits 10 k).reverse.map Nat.digitChar).asString
        = (([0] : List ℕ).map Nat.digitChar).asString := by
      rw [← natRepr_eq_digits k hk, h0]
      rfl
    have hlists : (Nat.digits 10 k).reverse = [0] := by
      refine map_digitChar_inj _ _ ?_ (by simp) (List.asString_inj.mp hk2)
      intro x hx
      exact Nat.digits_lt_base (by norm_num) (List.mem_reverse.mp hx)
    have hd : Nat.digits 10 k = [0] := by
      have := congrArg List.reverse hlists
      simpa using this
    have : k = 0 := by
      have hk3 := Nat.ofDigits_digits 10 k
      rw [hd] at hk3
      simpa using hk3.symm
    exact hk this
  by_cases hm : m = 0
  · by_cases hn : n = 0
    · rw [hm, hn]
    · subst hm
      exact absurd h.symm (fun hc => (base n hn hc).elim)
  · by_cases hn : n = 0
    · subst hn
      exact absurd h (fun hc => (base m hm hc).elim)
    · rw [natRepr_eq_digits m hm, natRepr_eq_digits n hn] at h
      have hmaps := List.asString_inj.mp h
      have hrev : (Nat.digits 10 m).reverse = (Nat.digits 10 n).reverse := by
        refine map_digitChar_inj _ _ ?_ ?_ hmaps <;>
          · intro x hx
            exact Nat.digits_lt_base (by norm_num) (List.mem_reverse.mp hx)
      have hdig : Nat.digits 10 m = Nat.digits 10 n := by
        have := congrArg List.reverse hrev
        simpa using this
      exact Nat.digits.injective 10 hdig

theorem nextWedgeName_injective : Function.Injective nextWedgeName := by
  intro m n h
  apply natRepr_injective
  unfold nextWedgeName at h
  have hdata := congrArg String.data h
  rw [String.data_append, String.data_append] at hdata
  exact String.ext (List.append_cancel_left hdata)

/-- The planar distance from `(x₁, y₁)` to `(x₂, y₂)`. -/
noncomputable def planarDist (x₁ y₁ x₂ y₂ : ℝ) : ℝ :=
  Real.sqrt ((x₂ - x₁) ^ 2 + (y₂ - y₁) ^ 2)

/-- Distance from the centre to a point at `|h| * sin a`, `|h| * cos a`
offsets is `|h|`. -/
theorem planarDist_polar (cx cy h a : ℝ) :
    planarDist cx cy (cx + |h| * Real.sin a) (cy + |h| * Real.cos a) = |h| := by
  unfold planarDist
  have key : (cx + |h| * Real.sin a - cx) ^ 2 + (cy + |h| * Real.cos a - cy) ^ 2
      = |h| ^ 2 * (Real.sin a ^ 2 + Real.cos a ^ 2) := by
    ring
  rw [key, Real.sin_sq_add_cos_sq, mul_one, Real.sqrt_sq_eq_abs, abs_abs]

/-! ## Sub-span facts for the split branch -/

/-- The span the first split call hands the builder reduces, mod 360, to
`theta / 2`. -/
theorem splitSpanA (w : WedgeRecord) (h1 : 135 < batchTheta w)
    (h2 : batchTheta w < 225) :
    pymod (splitMid w - normA w) 360 = batchTheta w / 2 := by
  unfold splitMid
  rw [pymod_shift (normA w) (batchTheta w / 2)]
  exact pymod_eq_self (by linarith) (by linarith)

/-- The span the second split call hands the builder reduces, mod 360, to
`theta / 2`. -/
theorem splitSpanB (w : WedgeRecord) (h1 : 135 < batchTheta w)
    (h2 : batchTheta w < 225) :
    pymod (splitEnd w - splitMid w) 360 = batchTheta w / 2 := by
  unfold splitEnd
  rw [pymod_shift (splitMid w) (batchTheta w / 2)]
  exact pymod_eq_self (by linarith) (by linarith)

/-! ## Concrete sample records (witness inputs) -/

/-- A quarter-circle record: `angleA = 0`, `angleB = 90`, `r1 = 10`. -/
def rec90 : WedgeRecord := ⟨1, 0, 0, 0, 90, 10, none⟩

/-- A half-circle record with an inner radius: `angleA = 0`,
`angleB = 180`, `r1 = 10`, `r2 = 5`. -/
def rec180 : WedgeRecord := ⟨2, 0, 0, 0, 180, 10, some 5⟩

/-- A record whose span is a full multiple of 360: `angleA = 0`,
`angleB = 720`, `r1 = 5`. -/
def rec720 : WedgeRecord := ⟨3, 0, 0, 0, 720, 5, none⟩

/-- A degenerate record with equal bearings: `angleA = angleB = 45`. -/
def recEq : WedgeRecord := ⟨4, 0, 0, 45, 45, 10, none⟩

theorem normA_rec90 : normA rec90 = 0 := by
  show pymod 0 360 = 0
  exact pymod_zero 360

theorem normB_rec90 : normB rec90 = 90 := by
  show pymod 90 360 = 90
  exact pymod_eq_self (by norm_num) (by norm_num)

theorem batchTheta_rec90 : batchTheta rec90 = 90 := by
  unfold batchTheta
  rw [normA_rec90, normB_rec90, sub_zero]
  exact pymod_eq_self (by norm_num) (by norm_num)

theorem normA_rec180 : normA rec180 = 0 := by
  show pymod 0 360 = 0
  exact pymod_zero 360

theorem normB_rec180 : normB rec180 = 180 := by
  show pymod 180 360 = 180
  exact pymod_eq_self (by norm_num) (by norm_num)

theorem batchTheta_rec180 : batchTheta rec180 = 180 := by
  unfold batchTheta
  rw [normA_rec180, normB_rec180, sub_zero]
  exact pymod_eq_self (by norm_num) (by norm_num)

theorem splitMid_rec180 : splitMid rec180 = 90 := by
  unfold splitMid
  rw [normA_rec180, batchTheta_rec180,
    show (0 : ℚ) + 180 / 2 = 90 by norm_num]
  exact pymod_eq_self (by norm_num) (by norm_num)

theorem splitEnd_rec180 : splitEnd rec180 = 180 := by
  unfold splitEnd
  rw [splitMid_rec180, batchTheta_rec180,
    show (90 : ℚ) + 180 / 2 = 180 by norm_num]
  exact pymod_eq_self (by norm_num) (by norm_num)

theorem normB_rec720 : normB rec720 = 0 := by
  show pymod 720 360 = 0
  rw [show (720 : ℚ) = 0 + 360 * ((2 : ℤ) : ℚ) by norm_num,
    pymod_add_int_mul 0 (by norm_num) 2]
  exact pymod_zero 360

/-- The hypothesis instance for the split branch at `rec180`. -/
theorem rec180_in_split_range :
    135 < batchTheta rec180 ∧ batchTheta rec180 < 225 := by
  rw [batchTheta_rec180]
  exact ⟨by decide, by decide⟩

/-- The hypothesis instance for the direct branch at `rec90`. -/
theorem rec90_not_in_split_range :
    ¬ (135 < batchTheta rec90 ∧ batchTheta rec90 < 225) := by
  rw [batchTheta_rec90]
  decide

theorem batchTheta_rec90_ne_zero : batchTheta rec90 ≠ 0 := by
  rw [batchTheta_rec90]
  decide

/-! ## The claims -/

/-- **C1.** The claim states that `erase` keeps a union fragment iff it
derives from the input source (`fromInput`) and not from the erase source
(`fromErase`), *including* the boundary case where the erase source's FID
equals 0.  Evaluating the code's deletion test at that boundary: the
fragment with `FID_input = 1`, `FID_erase = 0` derives from the erase
source (`fromErase = true`) yet is kept, because the where-clause deletes
only on `FID_erase > 0` — contradicting both the claim and the function's
own docstring ("performs the same as `arcpy.Erase_analysis`"). -/
theorem c1_fid_zero_fragment_kept :
    fromInput ⟨1, 0⟩ = true ∧ fromErase ⟨1, 0⟩ = true ∧
    eraseDeletes ⟨1, 0⟩ = false ∧
    eraseKept [⟨1, 0⟩] = [⟨1, 0⟩] := by
  refine ⟨by decide, by decide, by decide, ?_⟩
  simp [eraseKept, eraseDeletes]

/-- **C2.** The sector builder selects its construction strategy with
`reflex = ((angleB - angleA) mod 360) > 180`, computed on degrees before
the radian conversion: when reflex holds, the result is
`erase(disk, triangle)`; when reflex fails and `theta` is nonzero, the
result is the clip of the disk with the triangle. -/
theorem c2_strategy_selection (centerX centerY angleA angleB r : ℚ) :
    (pymod (angleB - angleA) 360 > 180 →
      createOneWedge centerX centerY angleA angleB r =
        Geom.eraseG (Geom.disk centerX centerY r)
          (Geom.triangle centerX centerY angleA angleB r)) ∧
    (¬ pymod (angleB - angleA) 360 > 180 → angleB - angleA ≠ 0 →
      createOneWedge centerX centerY angleA angleB r =
        Geom.clipG (Geom.disk centerX centerY r)
          (Geom.triangle centerX centerY angleA angleB r)) := by
  constructor
  · intro h
    have hne : angleB - angleA ≠ 0 := by
      intro h0
      rw [h0, pymod_zero] at h
      norm_num at h
    simp [createOneWedge, oneWedgeEraseBool, hne, h]
  · intro h hne
    simp [createOneWedge, oneWedgeEraseBool, hne, h]

theorem reflex_span_270 : pymod ((270 : ℚ) - 0) 360 > 180 := by
  rw [sub_zero, pymod_eq_self (by norm_num) (by norm_num)]
  decide

theorem convex_span_90 : ¬ pymod ((90 : ℚ) - 0) 360 > 180 := by
  rw [sub_zero, pymod_eq_self (by norm_num) (by norm_num)]
  decide

theorem convex_span_90_ne_zero : (90 : ℚ) - 0 ≠ 0 := by norm_num

/-- Witness for C2: a 270° span takes the erase branch, a 90° span the
clip branch. -/
theorem c2_strategy_selection_witness :
    createOneWedge 0 0 0 270 5 =
      Geom.eraseG (Geom.disk 0 0 5) (Geom.triangle 0 0 0 270 5) ∧
    createOneWedge 0 0 0 90 5 =
      Geom.clipG (Geom.disk 0 0 5) (Geom.triangle 0 0 0 90 5) :=
  ⟨(c2_strategy_selection 0 0 0 270 5).1 reflex_span_270,
   (c2_strategy_selection 0 0 0 90 5).2 convex_span_90 convex_span_90_ne_zero⟩

/-- **C6.** For every builder call, each triangle apex lies at distance
`|r_adjusted / cos(theta/2)|` from the centre, where `r_adjusted`
multiplies `r` by `3.2808399` exactly for the `"Foot_US"` linear unit,
and the apexes follow the bearing convention `X = sin`, `Y = cos` on the
radian angles. -/
theorem c6_apex_geometry (centerX centerY angleA angleB r : ℝ) (u : String) :
    planarDist centerX centerY
        (ptAX centerX u angleA angleB r) (ptAY centerY u angleA angleB r)
      = |r * unitAdjustment u / Real.cos (radiansR (angleB - angleA) / 2)| ∧
    planarDist centerX centerY
        (ptBX centerX u angleA angleB r) (ptBY centerY u angleA angleB r)
      = |r * unitAdjustment u / Real.cos (radiansR (angleB - angleA) / 2)| ∧
    ptAX centerX u angleA angleB r
      = centerX + |wedgeHyp u angleA angleB r| * Real.sin (radiansR angleA) ∧
    ptAY centerY u angleA angleB r
      = centerY + |wedgeHyp u angleA angleB r| * Real.cos (radiansR angleA) ∧
    ptBX centerX u angleA angleB r
      = centerX + |wedgeHyp u angleA angleB r| * Real.sin (radiansR angleB) ∧
    ptBY centerY u angleA angleB r
      = centerY + |wedgeHyp u angleA angleB r| * Real.cos (radiansR angleB) ∧
    unitAdjustment "Foot_US" = 3.2808399 ∧
    unitAdjustment "Meter" = 1 ∧
    unitAdjustment u = (if u = "Foot_US" then 3.2808399 else 1) := by
  have habs : |wedgeHyp u angleA angleB r|
      = |r * unitAdjustment u / Real.cos (radiansR (angleB - angleA) / 2)| := by
    unfold wedgeHyp
    exact abs_abs _
  refine ⟨?_, ?_, rfl, rfl, rfl, rfl, rfl, ?_, rfl⟩
  · rw [show ptAX centerX u angleA angleB r
        = centerX + |wedgeHyp u angleA angleB r| * Real.sin (radiansR angleA)
        from rfl,
      show ptAY centerY u angleA angleB r
        = centerY + |wedgeHyp u angleA angleB r| * Real.cos (radiansR angleA)
        from rfl,
      planarDist_polar, habs]
  · rw [show ptBX centerX u angleA angleB r
        = centerX + |wedgeHyp u angleA angleB r| * Real.sin (radiansR angleB)
        from rfl,
      show ptBY centerY u angleA angleB r
        = centerY + |wedgeHyp u angleA angleB r| * Real.cos (radiansR angleB)
        from rfl,
      planarDist_polar, habs]
  · unfold unitAdjustment
    rw [if_neg (by decide)]

/-- **C5** counterexample: with `theta = 0` (equal builder bearings, as
when a record's raw span is 360°) the claim says triangle construction is
skipped; in the code the triangle is still built and exported
(lines 150-163 precede the `theta == 0` test) — only the clip/erase is
skipped, and the full disk is copied to the output. -/
theorem c5_triangle_still_built :
    GeoOp.buildTriangle ∈ createOneWedgeOps 0 0 ∧
    createOneWedgeOps 0 0
      = [GeoOp.buildTriangle, GeoOp.bufferCircle, GeoOp.copyCircleToOutput] ∧
    createOneWedge 0 0 0 0 5 = Geom.disk 0 0 5 := by
  have h : createOneWedgeOps 0 0
      = [GeoOp.buildTriangle, GeoOp.bufferCircle, GeoOp.copyCircleToOutput] := by
    simp [createOneWedgeOps]
  exact ⟨by rw [h]; simp, h, by simp [createOneWedge]⟩

/-- **C5** (amended).  Inside the batch, a builder call with `theta = 0`
is reachable exactly when the record's raw span `angleB - angleA` is a
nonzero integer multiple of 360° (equal raw bearings are skipped first,
and both bearings are normalised into `[0, 360)` before the call); then
the builder performs no clip and no erase and returns the full disk of
radius `r` — although the degenerate triangle is still constructed before
the `theta == 0` test. -/
theorem c5_full_circle_case (w : WedgeRecord)
    (centerX centerY angleA angleB r : ℚ) (hne : w.angleA ≠ w.angleB) :
    (normA w = normB w ↔
      ∃ k : ℤ, k ≠ 0 ∧ w.angleB - w.angleA = 360 * (k : ℚ)) ∧
    (angleB - angleA = 0 →
      createOneWedge centerX centerY angleA angleB r
          = Geom.disk centerX centerY r ∧
      createOneWedgeOps angleA angleB
          = [GeoOp.buildTriangle, GeoOp.bufferCircle, GeoOp.copyCircleToOutput]) := by
  constructor
  · unfold normA normB
    constructor
    · intro h
      rcases (pymod_eq_pymod_iff w.angleA w.angleB
          (show (360 : ℚ) ≠ 0 by norm_num)).mp h with ⟨k, hk⟩
      refine ⟨k, ?_, hk⟩
      intro hk0
      apply hne
      rw [hk0] at hk
      push_cast at hk
      linarith
    · rintro ⟨k, _, hk⟩
      exact (pymod_eq_pymod_iff w.angleA w.angleB
        (show (360 : ℚ) ≠ 0 by norm_num)).mpr ⟨k, hk⟩
  · intro h0
    exact ⟨by simp [createOneWedge, h0], by simp [createOneWedgeOps, h0]⟩

/-- Witness for the amended C5 at `rec720` (raw span 720° = 2·360°). -/
theorem c5_full_circle_case_witness :
    normA rec720 = normB rec720 ∧
    createOneWedge 0 0 0 0 5 = Geom.disk 0 0 5 ∧
    createOneWedgeOps 0 0
      = [GeoOp.buildTriangle, GeoOp.bufferCircle, GeoOp.copyCircleToOutput] :=
  ⟨((c5_full_circle_case rec720 0 0 0 0 5 (by decide)).1).mpr
      ⟨2, by decide, by show (720 : ℚ) - 0 = 360 * ((2 : ℤ) : ℚ); push_cast; norm_num⟩,
   ((c5_full_circle_case rec720 0 0 0 0 5 (by decide)).2 (by norm_num)).1,
   ((c5_full_circle_case rec720 0 0 0 0 5 (by decide)).2 (by norm_num)).2⟩

/-- **C3.** For records with `135 < theta < 225` the batch does not build
the sector directly: it makes exactly the two builder calls `"WedgeA"`
over `[angleA, angleA + theta/2]` and `"WedgeB"` over
`[angleA + theta/2, angleA + theta]`, each sub-span (mod 360) equal to
`theta/2`, strictly between 67.5° and 112.5°, and the record's output is
the dissolve of the merge of the two parts; for every other nonzero
`theta` it makes exactly one builder call over the full span. -/
theorem c3_split_policy (total : ℕ) (st : BatchState) (w : WedgeRecord)
    (hne : w.angleA ≠ w.angleB) :
    (135 < batchTheta w ∧ batchTheta w < 225 →
      (processRecord total st w).builderCalls
          = st.builderCalls ++ [splitCallA w, splitCallB w] ∧
      pymod ((splitCallA w).angleB - (splitCallA w).angleA) 360
          = batchTheta w / 2 ∧
      pymod ((splitCallB w).angleB - (splitCallB w).angleA) 360
          = batchTheta w / 2 ∧
      (67.5 : ℚ) < batchTheta w / 2 ∧ batchTheta w / 2 < (112.5 : ℚ) ∧
      (processRecord total st w).outputs
          = st.outputs ++ [(nextWedgeName (st.count + 1),
              (applyInner w ("memory\\oWedge",
                Geom.dissolveG (Geom.mergeTwo (splitCallA w).result
                  (splitCallB w).result))).2, w.wedgeNumber)]) ∧
    (batchTheta w ≠ 0 → ¬ (135 < batchTheta w ∧ batchTheta w < 225) →
      (processRecord total st w).builderCalls
          = st.builderCalls ++ [directCall w] ∧
      (processRecord total st w).outputs
          = st.outputs ++ [(nextWedgeName (st.count + 1),
              (applyInner w ("memory\\oWedge", (directCall w).result)).2,
              w.wedgeNumber)]) := by
  constructor
  · intro h
    refine ⟨?_, splitSpanA w h.1 h.2, splitSpanB w h.1 h.2,
      by linarith [h.1], by linarith [h.2], ?_⟩
    · simp [processRecord, hne, h, finishRecord]
    · simp [processRecord, hne, h, finishRecord]
  · intro h0 hns
    constructor
    · simp [processRecord, hne, hns, finishRecord]
    · simp [processRecord, hne, hns, finishRecord]

/-- Witness for C3: `rec180` takes the two-call split path, `rec90` the
one-call direct path. -/
theorem c3_split_policy_witness :
    ((processRecord 2 initialState rec180).builderCalls
        = initialState.builderCalls ++ [splitCallA rec180, splitCallB rec180] ∧
      pymod ((splitCallA rec180).angleB - (splitCallA rec180).angleA) 360
          = batchTheta rec180 / 2 ∧
      pymod ((splitCallB rec180).angleB - (splitCallB rec180).angleA) 360
          = batchTheta rec180 / 2 ∧
      (67.5 : ℚ) < batchTheta rec180 / 2 ∧ batchTheta rec180 / 2 < (112.5 : ℚ) ∧
      (processRecord 2 initialState rec180).outputs
          = initialState.outputs ++ [(nextWedgeName (initialState.count + 1),
              (applyInner rec180 ("memory\\oWedge",
                Geom.dissolveG (Geom.mergeTwo (splitCallA rec180).result
                  (splitCallB rec180).result))).2, rec180.wedgeNumber)]) ∧
    ((processRecord 2 initialState rec90).builderCalls
        = initialState.builderCalls ++ [directCall rec90] ∧
      (processRecord 2 initialState rec90).outputs
          = initialState.outputs ++ [(nextWedgeName (initialState.count + 1),
              (applyInner rec90 ("memory\\oWedge", (directCall rec90).result)).2,
              rec90.wedgeNumber)]) :=
  ⟨(c3_split_policy 2 initialState rec180 (by decide)).1 rec180_in_split_range,
   (c3_split_policy 2 initialState rec90 (by decide)).2 batchTheta_rec90_ne_zero
     rec90_not_in_split_range⟩

/-- **C4.** The builder's reflex decision, computed on the arguments it
receives, agrees with the batch's post-normalisation `theta`: on the
direct path the builder's `(angleB - angleA) mod 360` is exactly
`(angleB mod 360 - angleA mod 360) mod 360`, and on the split path each
sub-call's span mod 360 is `theta/2`, so neither sub-call takes the erase
branch. -/
theorem c4_reflex_decision_agreement (w : WedgeRecord)
    (hne : w.angleA ≠ w.angleB) :
    (pymod ((directCall w).angleB - (directCall w).angleA) 360
        = pymod (pymod w.angleB 360 - pymod w.angleA 360) 360 ∧
      oneWedgeEraseBool (directCall w).angleA (directCall w).angleB
        = decide (batchTheta w > 180)) ∧
    (135 < batchTheta w ∧ batchTheta w < 225 →
      pymod ((splitCallA w).angleB - (splitCallA w).angleA) 360
          = batchTheta w / 2 ∧
      pymod ((splitCallB w).angleB - (splitCallB w).angleA) 360
          = batchTheta w / 2 ∧
      oneWedgeEraseBool (splitCallA w).angleA (splitCallA w).angleB = false ∧
      oneWedgeEraseBool (splitCallB w).angleA (splitCallB w).angleB = false) := by
  constructor
  · exact ⟨rfl, rfl⟩
  · intro h
    have hA := splitSpanA w h.1 h.2
    have hB := splitSpanB w h.1 h.2
    refine ⟨hA, hB, ?_, ?_⟩
    · show decide (pymod (splitMid w - normA w) 360 > 180) = false
      rw [hA]
      exact decide_eq_false (not_lt.mpr (by linarith [h.2]))
    · show decide (pymod (splitEnd w - splitMid w) 360 > 180) = false
      rw [hB]
      exact decide_eq_false (not_lt.mpr (by linarith [h.2]))

/-- Witness for C4 at `rec90` (direct path) and `rec180` (split path). -/
theorem c4_reflex_decision_agreement_witness :
    (pymod ((directCall rec90).angleB - (directCall rec90).angleA) 360
        = pymod (pymod rec90.angleB 360 - pymod rec90.angleA 360) 360 ∧
      oneWedgeEraseBool (directCall rec90).angleA (directCall rec90).angleB
        = decide (batchTheta rec90 > 180)) ∧
    (pymod ((splitCallA rec180).angleB - (splitCallA rec180).angleA) 360
        = batchTheta rec180 / 2 ∧
      pymod ((splitCallB rec180).angleB - (splitCallB rec180).angleA) 360
        = batchTheta rec180 / 2 ∧
      oneWedgeEraseBool (splitCallA rec180).angleA (splitCallA rec180).angleB
        = false ∧
      oneWedgeEraseBool (splitCallB rec180).angleA (splitCallB rec180).angleB
        = false) :=
  ⟨(c4_reflex_decision_agreement rec90 (by decide)).1,
   (c4_reflex_decision_agreement rec180 (by decide)).2 rec180_in_split_range⟩

/-- **C7.** A record whose raw `angleA` equals its raw `angleB` (compared
before any normalisation) contributes nothing: the iteration leaves the
outputs, the merge list and the builder calls untouched — so no circle is
ever built for it — appends only the skip diagnostic, increments the
counter, and the fold continues with the remaining records. -/
theorem c7_equal_angles_skipped (total : ℕ) (st : BatchState)
    (w : WedgeRecord) (rest : List WedgeRecord) (heq : w.angleA = w.angleB) :
    processRecord total st w
        = { st with
            messages := st.messages ++ [skipMessage st.count]
            count := st.count + 1 } ∧
    (w :: rest).foldl (processRecord total) st
        = rest.foldl (processRecord total)
            { st with
              messages := st.messages ++ [skipMessage st.count]
              count := st.count + 1 } := by
  have hstep : processRecord total st w
      = { st with
          messages := st.messages ++ [skipMessage st.count]
          count := st.count + 1 } := by
    simp [processRecord, heq]
  exact ⟨hstep, by rw [List.foldl_cons, hstep]⟩

/-- Witness for C7 at `recEq` (both bearings 45°), followed by `rec90`. -/
theorem c7_equal_angles_skipped_witness :
    processRecord 2 initialState recEq
        = { initialState with
            messages := initialState.messages ++ [skipMessage initialState.count]
            count := initialState.count + 1 } ∧
    (recEq :: [rec90]).foldl (processRecord 2) initialState
        = [rec90].foldl (processRecord 2)
            { initialState with
              messages := initialState.messages ++ [skipMessage initialState.count]
              count := initialState.count + 1 } :=
  c7_equal_angles_skipped 2 initialState recEq [rec90] rfl

/-- **C8.** `innerWedgeErase` with `r2 = 0` is the identity (same handle,
no geometry operation); with `r2 > 0` it is `erase(wedge, disk(r2))` into
`memory\oWedge2`; and the batch applies the inner-radius step exactly to
records that carry the seventh, inner-radius attribute. -/
theorem c8_inner_radius_step (centerX centerY r2 : ℚ) (wedge : String × Geom)
    (w : WedgeRecord) (oWedge : String × Geom) :
    (r2 = 0 →
      innerWedgeErase centerX centerY r2 wedge = wedge ∧
      innerWedgeEraseOps r2 = []) ∧
    (0 < r2 →
      innerWedgeErase centerX centerY r2 wedge
          = ("memory\\oWedge2",
             Geom.eraseG wedge.2 (Geom.disk centerX centerY r2)) ∧
      innerWedgeEraseOps r2
          = [GeoOp.bufferInnerCircle, GeoOp.eraseInnerCircle]) ∧
    (w.r2? = none → applyInner w oWedge = oWedge) ∧
    (∀ rr : ℚ, w.r2? = some rr →
      applyInner w oWedge = innerWedgeErase w.centerX w.centerY rr oWedge) := by
  refine ⟨?_, ?_, ?_, ?_⟩
  · intro h0
    exact ⟨by simp [innerWedgeErase, h0], by simp [innerWedgeEraseOps, h0]⟩
  · intro hpos
    have hne : r2 ≠ 0 := ne_of_gt hpos
    exact ⟨by simp [innerWedgeErase, hne], by simp [innerWedgeEraseOps, hne]⟩
  · intro hnone
    simp [applyInner, hnone]
  · intro rr hsome
    simp [applyInner, hsome]

/-- Witness for C8: identity at `r2 = 0`, erase at `r2 = 5`, and the
batch's attribute test at `rec90` (no `r2`) and `rec180` (`r2 = 5`). -/
theorem c8_inner_radius_step_witness :
    innerWedgeErase 0 0 0 ("memory\\oWedge", Geom.disk 0 0 1)
        = ("memory\\oWedge", Geom.disk 0 0 1) ∧
    innerWedgeEraseOps 0 = [] ∧
    innerWedgeErase 0 0 5 ("memory\\oWedge", Geom.disk 0 0 1)
        = ("memory\\oWedge2",
           Geom.eraseG (Geom.disk 0 0 1) (Geom.disk 0 0 5)) ∧
    applyInner rec90 ("memory\\oWedge", Geom.disk 0 0 1)
        = ("memory\\oWedge", Geom.disk 0 0 1) ∧
    applyInner rec180 ("memory\\oWedge", Geom.disk 0 0 1)
        = innerWedgeErase rec180.centerX rec180.centerY 5
            ("memory\\oWedge", Geom.disk 0 0 1) :=
  ⟨((c8_inner_radius_step 0 0 0 ("memory\\oWedge", Geom.disk 0 0 1)
      rec90 ("memory\\oWedge", Geom.disk 0 0 1)).1 rfl).1,
   ((c8_inner_radius_step 0 0 0 ("memory\\oWedge", Geom.disk 0 0 1)
      rec90 ("memory\\oWedge", Geom.disk 0 0 1)).1 rfl).2,
   ((c8_inner_radius_step 0 0 5 ("memory\\oWedge", Geom.disk 0 0 1)
      rec90 ("memory\\oWedge", Geom.disk 0 0 1)).2.1 (by decide)).1,
   (c8_inner_radius_step 0 0 0 ("memory\\oWedge", Geom.disk 0 0 1)
      rec90 ("memory\\oWedge", Geom.disk 0 0 1)).2.2.1 rfl,
   (c8_inner_radius_step 0 0 0 ("memory\\oWedge", Geom.disk 0 0 1)
      rec180 ("memory\\oWedge", Geom.disk 0 0 1)).2.2.2 5 rfl⟩

/-- On a run in which every record is skipped, the merge list never
grows. -/
theorem foldl_all_skipped_mergeList (total : ℕ) :
    ∀ (records : List WedgeRecord) (st : BatchState),
      (∀ w ∈ records, w.angleA = w.angleB) →
      (records.foldl (processRecord total) st).mergeList = st.mergeList := by
  intro records
  induction records with
  | nil =>
    intro st _
    rfl
  | cons w rest ih =>
    intro st hall
    rw [List.foldl_cons]
    rw [ih (processRecord total st w) (fun v hv => hall v (by simp [hv]))]
    simp [processRecord, hall w (by simp)]

/-- **C9.** On an empty record sequence — and, more generally, whenever
every record is skipped so that nothing accumulates — `createWedges`
yields an error rather than an empty output collection: the final merge
of zero parts is invalid. -/
theorem c9_empty_batch_error (records : List WedgeRecord)
    (h : ∀ w ∈ records, w.angleA = w.angleB) :
    createWedges records = Except.error BatchError.emptyMergeInput := by
  have hm := foldl_all_skipped_mergeList records.length records initialState h
  unfold createWedges
  simp only [hm]
  simp [initialState]

/-- Witness for C9: the empty batch errors out. -/
theorem c9_empty_batch_error_witness :
    createWedges [] = Except.error BatchError.emptyMergeInput :=
  c9_empty_batch_error []
    (fun w hw => absurd hw (List.not_mem_nil w))

/-- The counter increments by exactly one on either path of the loop
body. -/
theorem processRecord_count (total : ℕ) (st : BatchState) (w : WedgeRecord) :
    (processRecord total st w).count = st.count + 1 := by
  unfold processRecord finishRecord
  split
  · rfl
  · split <;> rfl

theorem foldl_processRecord_count (total : ℕ) (records : List WedgeRecord) :
    ∀ st : BatchState,
      (records.foldl (processRecord total) st).count = st.count + records.length := by
  induction records with
  | nil => intro st; simp
  | cons w rest ih =>
    intro st
    rw [List.foldl_cons, ih (processRecord total st w), processRecord_count]
    simp
    omega

/-- The loop invariant behind the `memory\nextWedge{count}` naming: the
counter is at least 1, every accumulated merge name is `nextWedgeName c`
for some `2 ≤ c ≤ count`, the names are pairwise distinct, and they are
exactly the names of the accumulated outputs. -/
def countedNames (st : BatchState) : Prop :=
  1 ≤ st.count ∧ st.mergeList.Nodup ∧
  st.mergeList = st.outputs.map Prod.fst ∧
  ∀ s ∈ st.mergeList, ∃ c, 2 ≤ c ∧ c ≤ st.count ∧ s = nextWedgeName c

theorem finishRecord_countedNames (st : BatchState) (w : WedgeRecord)
    (total : ℕ) (calls : List BuilderCall) (oWedge : String × Geom)
    (h : countedNames st) :
    countedNames (finishRecord st w total calls oWedge) := by
  obtain ⟨h1, h2, h3, h4⟩ := h
  have hnew : nextWedgeName (st.count + 1) ∉ st.mergeList := by
    intro hmem
    obtain ⟨c, _, hcle, hceq⟩ := h4 _ hmem
    have : st.count + 1 = c := nextWedgeName_injective hceq
    omega
  refine ⟨?_, ?_, ?_, ?_⟩
  · show 1 ≤ st.count + 1
    omega
  · show (st.mergeList ++ [nextWedgeName (st.count + 1)]).Nodup
    refine h2.append (List.nodup_singleton _) ?_
    intro s hs hs'
    rw [List.mem_singleton] at hs'
    rw [hs'] at hs
    exact hnew hs
  · show st.mergeList ++ [nextWedgeName (st.count + 1)]
        = (st.outputs ++ [(nextWedgeName (st.count + 1),
            (applyInner w oWedge).2, w.wedgeNumber)]).map Prod.fst
    rw [List.map_append, ← h3]
    rfl
  · intro s hs
    rw [show (finishRecord st w total calls oWedge).mergeList
        = st.mergeList ++ [nextWedgeName (st.count + 1)] from rfl,
      List.mem_append] at hs
    rcases hs with hs | hs
    · obtain ⟨c, hc2, hcle, hceq⟩ := h4 s hs
      exact ⟨c, hc2, by show c ≤ st.count + 1; omega, hceq⟩
    · rw [List.mem_singleton] at hs
      exact ⟨st.count + 1, by omega, by show st.count + 1 ≤ st.count + 1; omega, hs⟩

theorem processRecord_countedNames (total : ℕ) (st : BatchState)
    (w : WedgeRecord) (h : countedNames st) :
    countedNames (processRecord total st w) := by
  unfold processRecord
  split
  · obtain ⟨h1, h2, h3, h4⟩ := h
    exact ⟨by show 1 ≤ st.count + 1; omega, h2, h3,
      fun s hs => (h4 s hs).imp
        (fun c hc => ⟨hc.1, by show c ≤ st.count + 1; omega, hc.2.2⟩)⟩
  · split
    · exact finishRecord_countedNames st w total _ _ h
    · exact finishRecord_countedNames st w total _ _ h

theorem foldl_countedNames (total : ℕ) (records : List WedgeRecord) :
    ∀ st : BatchState, countedNames st →
      countedNames (records.foldl (processRecord total) st) := by
  induction records with
  | nil => intro st h; exact h
  | cons w rest ih =>
    intro st h
    rw [List.foldl_cons]
    exact ih _ (processRecord_countedNames total st w h)

theorem initialState_countedNames : countedNames initialState :=
  ⟨le_refl 1, List.nodup_nil, rfl, by intro s hs; simp [initialState] at hs⟩

/-- **C10.** Within one `createWedges` run the counter starts at 1 and
increases by exactly 1 on every iteration — on the skip path and on the
normal path alike — so the accumulated `memory\nextWedge{count}` names
are pairwise distinct and no record's accumulated output is overwritten
by a later record before the final merge. -/
theorem c10_counter_and_distinct_names (total : ℕ)
    (records : List WedgeRecord) :
    initialState.count = 1 ∧
    (∀ (st : BatchState) (w : WedgeRecord),
      (processRecord total st w).count = st.count + 1) ∧
    (records.foldl (processRecord total) initialState).count
        = 1 + records.length ∧
    (records.foldl (processRecord total) initialState).mergeList.Nodup ∧
    (records.foldl (processRecord total) initialState).mergeList
        = (records.foldl (processRecord total) initialState).outputs.map
            Prod.fst := by
  have hinv := foldl_countedNames total records initialState
    initialState_countedNames
  refine ⟨rfl, processRecord_count total, ?_, hinv.2.1, hinv.2.2.1⟩
  rw [foldl_processRecord_count total records initialState]
  show 1 + records.length = 1 + records.length
  rfl

end WedgeMaker
